import Mathlib

/-
Verification of the annotation-engine behavior of the cognitive-traces
repository, as a shallow embedding in Lean 4.

Frontend code is translated from the TypeScript sources under src/
(the annotator components, the shared utility module, and the dataset
converter page).  The backend orchestration engine (job manager, model
router, disagreement scorer, resume endpoint) ships no source in this
repository, so those operations are modelled from the specification
text; every such definition carries a doc comment starting with
"Modelled from the spec:".
-/

namespace CognitiveTraces

/-! ## Label vocabulary (frontend LABELS constant and label schema) -/

/-- One selectable label in the human-resolution interface: the value sent to
the resolve endpoint, a short title and a description, as in the LABELS
constant of the FlaggedSessions component. -/
structure LabelOption where
  value : String
  title : String
  desc : String
  deriving DecidableEq, Repr

/-- The LABELS constant of the FlaggedSessions component: the six label choices
offered by the human-resolution interface. -/
def LABELS : List LabelOption :=
  [ { value := "FollowingScent", title := "Following a strong scent",
      desc := "Targeted query indicating strong information scent." },
    { value := "ApproachingSource", title := "Approaching an information source",
      desc := "Clicking a promising result to investigate further." },
    { value := "DietEnrichment", title := "Enriching the information diet",
      desc := "Refining the query to broaden or narrow the scope." },
    { value := "PoorScent", title := "Poor scent in the current patch",
      desc := "Issuing a new query without clicks from the current SERP." },
    { value := "LeavingPatch", title := "Deciding to leave the patch",
      desc := "Ending a session after multiple reformulations without success." },
    { value := "ForagingSuccess", title := "Successful foraging within the patch",
      desc := "Finding an answer directly on the SERP without clicks." } ]

/-- Modelled from the spec: the cognitive-label schema is a closed set of six
Information-Foraging-Theory categories (the enum itself lives in the backend,
which ships no source; the names match the frontend LABELS constant). -/
inductive CognitiveLabel where
  | followingScent
  | approachingSource
  | dietEnrichment
  | poorScent
  | leavingPatch
  | foragingSuccess
  deriving DecidableEq, Repr

/-- String name of a cognitive label, as it appears in API payloads and in the
LABELS constant. -/
def labelName : CognitiveLabel → String
  | .followingScent => "FollowingScent"
  | .approachingSource => "ApproachingSource"
  | .dietEnrichment => "DietEnrichment"
  | .poorScent => "PoorScent"
  | .leavingPatch => "LeavingPatch"
  | .foragingSuccess => "ForagingSuccess"

/-! ## Agent decisions and the disagreement scorer -/

/-- Modelled from the spec: an AgentDecision is a per-event output of one agent
stage: a cognitive label, a justification text and a confidence in [0,1]
(the agent implementation is in the backend, which ships no source). -/
structure AgentDecision where
  label : CognitiveLabel
  justification : String
  confidence : ℚ

/-- Modelled from the spec: weight of the binary label-mismatch term of the
disagreement scorer; the spec requires the mismatch term to be weighted more
heavily than the confidence-gap term. -/
def mismatchWeight : ℚ := 7 / 10

/-- Modelled from the spec: weight of the confidence-gap magnitude term of the
disagreement scorer. -/
def gapWeight : ℚ := 3 / 10

/-- Modelled from the spec: core of the disagreement scorer, combining a
binary mismatch term and a confidence-gap magnitude term, bounded to [0,1]
for gaps in [0,1]. -/
def scoreOf (mismatch : Bool) (gap : ℚ) : ℚ :=
  (if mismatch then mismatchWeight else 0) + gapWeight * gap

/-- Modelled from the spec: the disagreement score of one event, computed from
the Analyst and the Critic decisions for that event (the scorer lives in the
backend, which ships no source). -/
def disagreementScore (analyst critic : AgentDecision) : ℚ :=
  scoreOf (decide (analyst.label ≠ critic.label)) |analyst.confidence - critic.confidence|

/-! ## Provider configuration and job start (LLMConfigPanel, spec job manager) -/

/-- Provider credentials of the LLM configuration, as held by the
LLMConfigPanel component: three API keys and an Ollama base URL, each possibly
empty. -/
structure ProviderConfig where
  anthropicApiKey : String
  openaiApiKey : String
  googleApiKey : String
  ollamaBaseUrl : String
  deriving DecidableEq, Repr

/-- The isConfigValid check of the LLMConfigPanel component: at least one
provider is configured, where Ollama counts only when the connection test
succeeded and a base URL is set.  Empty strings are falsy in the source. -/
def isConfigValid (cfg : ProviderConfig) (ollamaConnected : Bool) : Bool :=
  !cfg.anthropicApiKey.isEmpty ||
  !cfg.openaiApiKey.isEmpty ||
  !cfg.googleApiKey.isEmpty ||
  (ollamaConnected && !cfg.ollamaBaseUrl.isEmpty)

/-- Status of an annotation job, as in the spec job state machine and the
status strings polled by the ProgressTracker component. -/
inductive JobStatus where
  | pending
  | processing
  | completed
  | stopped
  | failed
  deriving DecidableEq, Repr

/-- An annotation job, restricted to the fields the verified operations read:
identifier, dataset reference, ordered session ids, status, completed-session
ids, current session, flagged-session ids and error strings. -/
structure Job where
  jobId : String
  datasetId : String
  sessionIds : List String
  status : JobStatus
  completedSessions : List String
  currentSession : Option String
  flaggedSessions : List String
  errors : List String
  deriving DecidableEq, Repr

/-- Failure mode of the start operation when no provider is configured. -/
inductive StartError where
  | noProviderConfigured
  deriving DecidableEq, Repr

/-- Modelled from the spec: start(dataset, config) validates that at least one
provider is configured and only then creates the job and transitions it to
processing; otherwise it fails fast and no job enters processing (the job
manager is in the backend, which ships no source; the provider validation
mirrors the isConfigValid check of the configuration panel). -/
def startJob (cfg : ProviderConfig) (ollamaConnected : Bool)
    (jobId datasetId : String) (sessions : List String) : Except StartError Job :=
  if isConfigValid cfg ollamaConnected then
    .ok { jobId := jobId, datasetId := datasetId, sessionIds := sessions,
          status := .processing, completedSessions := [],
          currentSession := sessions.head?, flaggedSessions := [], errors := [] }
  else
    .error .noProviderConfigured

/-! ## Content truncation helper (frontend utility module) -/

/-- The truncate helper of the frontend utility module: returns the text
unchanged when it fits, otherwise the first maxLength characters followed by
an ellipsis. -/
def truncate (text : String) (maxLength : Nat) : String :=
  if text.length ≤ maxLength then text
  else text.take maxLength ++ "..."

/-! ## Resume (ProgressTracker client, spec job manager) -/

/-- Modelled from the spec: a checkpoint records the job id, the
completed-session ids, the dataset reference and a configuration snapshot
(the checkpoint store is in the backend, which ships no source). -/
structure Checkpoint where
  jobId : String
  completedSessions : List String
  datasetId : String
  configSnapshot : String
  deriving DecidableEq, Repr

/-- Failure modes of the resume operation, as named in the spec error
taxonomy. -/
inductive ResumeError where
  | checkpointNotFound
  | datasetUnavailable
  deriving DecidableEq, Repr

/-- Modelled from the spec: the job produced by a successful resume — status
processing, dataset as resolved, completed set taken from the checkpoint, and
the current session set to the first session id not in the completed set. -/
def continueFromCheckpoint (job : Job) (cp : Checkpoint) (datasetId : String)
    (_newConfig : Option String) : Job :=
  { job with
      status := .processing
      datasetId := datasetId
      completedSessions := cp.completedSessions
      currentSession :=
        (job.sessionIds.filter (fun s => decide (s ∉ cp.completedSessions))).head? }

/-- Modelled from the spec: resume(jobId, [newConfig]) requires a checkpoint,
requires the dataset of the checkpoint to still be resolvable unless the
caller re-supplies a dataset (error datasetUnavailable otherwise), optionally
accepts replacement model configuration, transitions the job to processing and
continues from the first session not in the completed set of the checkpoint
(the resume endpoint is in the backend, which ships no source; the
ProgressTracker component issues the request with the optional re-uploaded
dataset id and replacement configuration). -/
def resumeJob (checkpoint : Option Checkpoint) (resolvable : String → Bool)
    (job : Job) (newDatasetId : Option String) (newConfig : Option String) :
    Except ResumeError Job :=
  match checkpoint with
  | none => .error .checkpointNotFound
  | some cp =>
    match newDatasetId with
    | none =>
      if resolvable cp.datasetId then
        .ok (continueFromCheckpoint job cp cp.datasetId newConfig)
      else
        .error .datasetUnavailable
    | some suppliedId => .ok (continueFromCheckpoint job cp suppliedId newConfig)

/-! ## Model router fallback (spec model router, panel fallback defaults) -/

/-- Which configured model a router call attempts or uses. -/
inductive ModelChoice where
  | primary
  | fallback
  deriving DecidableEq, Repr

/-- Fallback-related fields of the LLM configuration, as in the configuration
panel: whether fallback is enabled and the optional retry-after interval in
minutes. -/
structure RouterConfig where
  enableFallback : Bool
  fallbackRetryAfter : Option Nat
  deriving DecidableEq, Repr

/-- The effective retry-after interval: the source reads the configured value
with a default of 5 minutes when it is missing (and the JavaScript or-default
also replaces a configured 0, which is falsy). -/
def effectiveRetryAfter (v : Option Nat) : Nat :=
  match v with
  | none => 5
  | some n => if n = 0 then 5 else n

/-- Modelled from the spec: per-role state of the model router — whether the
role is currently routed to the fallback model and until when the primary is
in cooldown (a timestamp in minutes). -/
structure RouterState where
  usingFallback : Bool
  cooldownUntil : Nat
  deriving DecidableEq, Repr

/-- Modelled from the spec: one router call at time now.  While the fallback
is active and the cooldown has not elapsed, the call uses the fallback without
attempting the primary.  Otherwise the primary is attempted; on failure with
fallback enabled the call switches the role to the fallback and starts the
cooldown timer; on success the role returns to the primary.  The result is
(primary attempted, model used, next state); the router itself is in the
backend, which ships no source. -/
def routerInvoke (cfg : RouterConfig) (st : RouterState) (now : Nat)
    (primaryFails : Bool) : Bool × ModelChoice × RouterState :=
  if st.usingFallback && decide (now < st.cooldownUntil) then
    (false, .fallback, st)
  else if primaryFails then
    if cfg.enableFallback then
      (true, .fallback,
        { usingFallback := true,
          cooldownUntil := now + effectiveRetryAfter cfg.fallbackRetryAfter })
    else
      (true, .primary, st)
  else
    (true, .primary, { st with usingFallback := false })

/-! ## Session-handling strategy (configuration panel) -/

/-- The three session-handling strategies of the LLM configuration. -/
inductive SessionStrategy where
  | full
  | truncateStrategy
  | slidingWindow
  deriving DecidableEq, Repr

/-- Session-handling fields of the LLM configuration held by the configuration
panel: the selected strategy and the sliding-window size. -/
structure StrategyConfig where
  sessionStrategy : SessionStrategy
  windowSize : Nat
  deriving DecidableEq, Repr

/-- The session-handling defaults of the configuration panel: strategy
truncate and window size 30. -/
def defaultStrategyConfig : StrategyConfig :=
  { sessionStrategy := .truncateStrategy, windowSize := 30 }

/-- The strategy applied to a session: the configured session strategy, which
the panel lets the user pick once per job and which governs the processing of
every session of the job; it does not depend on the event count of the
session. -/
def strategyFor (cfg : StrategyConfig) (_eventCount : Nat) : SessionStrategy :=
  cfg.sessionStrategy

/-- Modelled from the spec: under the sliding-window strategy only the most
recent windowSize events of a session are processed (the executor is in the
backend, which ships no source; the panel states that the last windowSize
events from each session are processed). -/
def applySlidingWindow (windowSize : Nat) (events : List α) : List α :=
  events.drop (events.length - windowSize)

/-! ## Flagged-session review (FlaggedSessions component)

The FlaggedSessions component walks the reviewer through the flagged events
of one flagged session at a time.  The state below is the per-session slice
of the component state: the loaded session log, the index of the flagged
event currently shown (currentFlaggedEventIndex), the selected label and note,
whether the session is in the resolved set, and the resolution requests sent
so far.  Each request is recorded together with the flagged-event positions
it covers: a save of the currently shown flagged event covers that one
position, and the session-wide auto-annotate request covers every flagged
position of the session (the resolve endpoint is session-scoped; the spec
resolve operation takes an event id or the whole session). -/

/-- One event of a loaded session log, restricted to the fields the
FlaggedSessions component reads: the flagged_for_review bit and the final
label when present (cognitive_label in the source, with empty strings falsy
and filtered out). -/
structure ReviewEvent where
  flaggedForReview : Bool
  finalLabel : Option String
  deriving DecidableEq, Repr

/-- One resolution request sent to the resolve endpoint: label, note and the
flagged-event positions of the session it covers. -/
structure ResolutionWrite where
  label : String
  note : String
  covers : List Nat
  deriving DecidableEq, Repr

/-- Per-session slice of the FlaggedSessions component state. -/
structure ReviewState where
  sessionLog : List ReviewEvent
  currentFlaggedIdx : Nat
  selectedLabel : Option String
  note : String
  resolved : Bool
  writes : List ResolutionWrite
  deriving DecidableEq, Repr

/-- The positions of the flagged events of a session log, as computed in the
component: enumerate, keep the flagged entries, take the indices. -/
def flaggedIndices (events : List ReviewEvent) : List Nat :=
  ((events.enum).filter (fun p => p.2.flaggedForReview)).map (fun p => p.1)

/-- The initial per-session state: index 0, nothing selected, empty note, not
resolved, no requests sent. -/
def initialReviewState (log : List ReviewEvent) : ReviewState :=
  { sessionLog := log, currentFlaggedIdx := 0, selectedLabel := none,
    note := "", resolved := false, writes := [] }

/-- Selecting a label in the radio group of the component. -/
def selectLabel (st : ReviewState) (l : String) : ReviewState :=
  { st with selectedLabel := some l }

/-- Editing the note field of the component. -/
def setNote (st : ReviewState) (n : String) : ReviewState :=
  { st with note := n }

/-- The submitResolution handler: with no selected label it shows an error and
returns without sending anything; otherwise it sends one resolve request for
the flagged event currently shown, then either advances to the next flagged
event (clearing the selection) or, when the shown event was the last flagged
one, adds the session to the resolved set. -/
def submitResolution (st : ReviewState) : ReviewState :=
  match st.selectedLabel with
  | none => st
  | some label =>
    let fi := flaggedIndices st.sessionLog
    let w : ResolutionWrite :=
      { label := label, note := st.note, covers := fi[st.currentFlaggedIdx]?.toList }
    if st.currentFlaggedIdx < fi.length - 1 then
      { st with currentFlaggedIdx := st.currentFlaggedIdx + 1,
                selectedLabel := none,
                writes := st.writes ++ [w] }
    else
      { st with resolved := true, writes := st.writes ++ [w] }

/-- Count of occurrences of a string in a list, used by the most-common-label
computation of the auto-annotate handler. -/
def countOccurrences (s : String) (l : List String) : Nat :=
  (l.filter (fun x => x = s)).length

/-- The most common label of a list, ties broken by first occurrence: the
auto-annotate handler counts labels in first-occurrence order and takes the
head of a stable sort by descending count. -/
def mostCommonLabel (labels : List String) : String :=
  (labels.foldl
    (fun best x =>
      match best with
      | none => some x
      | some b =>
        if countOccurrences x labels > countOccurrences b labels then some x
        else some b)
    none).getD ""

/-- The final labels present on a list of events: cognitive_label values,
with missing and empty (falsy) ones filtered out as in the source. -/
def presentFinalLabels (events : List ReviewEvent) : List String :=
  events.filterMap (fun ev =>
    ev.finalLabel.bind (fun s => if s = "" then none else some s))

/-- The autoAnnotateWithFinal handler: with no flagged events or no final
labels on them it shows an error and returns; otherwise it selects the most
common final label of the flagged events, sends one session-wide resolve
request covering every flagged event, and adds the session to the resolved
set. -/
def autoAnnotateWithFinal (st : ReviewState) : ReviewState :=
  let flaggedEvents := st.sessionLog.filter (fun ev => ev.flaggedForReview)
  if flaggedEvents.isEmpty then st
  else
    let labels := presentFinalLabels flaggedEvents
    if labels.isEmpty then st
    else
      let mc := mostCommonLabel labels
      let w : ResolutionWrite :=
        { label := mc, note := "Auto-annotated using final label",
          covers := flaggedIndices st.sessionLog }
      { st with selectedLabel := some mc, resolved := true,
                writes := st.writes ++ [w] }

/-- The save button of the component is disabled exactly when no label is
selected for the session. -/
def saveDisabled (st : ReviewState) : Bool :=
  st.selectedLabel.isNone

/-- One user interaction on the per-session review state.  Label selection is
restricted to the six values offered by the LABELS radio group. -/
inductive ReviewStep : ReviewState → ReviewState → Prop where
  | select (st : ReviewState) (l : String)
      (hl : l ∈ LABELS.map LabelOption.value) : ReviewStep st (selectLabel st l)
  | edit (st : ReviewState) (n : String) : ReviewStep st (setNote st n)
  | submit (st : ReviewState) : ReviewStep st (submitResolution st)
  | auto (st : ReviewState) : ReviewStep st (autoAnnotateWithFinal st)

/-- States of the component reachable from the initial state of some session
log through user interactions. -/
inductive ReviewReachable : ReviewState → Prop where
  | init (log : List ReviewEvent) : ReviewReachable (initialReviewState log)
  | step (st st₂ : ReviewState) : ReviewReachable st → ReviewStep st st₂ →
      ReviewReachable st₂

/-- The flagged-event positions covered by the resolution requests sent so
far. -/
def resolvedTargets (st : ReviewState) : List Nat :=
  (st.writes.map ResolutionWrite.covers).flatten

/-- Invariant of the per-session review state: while the session is not in
the resolved set, the requests sent so far cover exactly the first
currentFlaggedIdx flagged positions; once the session is in the resolved set,
every flagged position of the session is covered by some request. -/
def ReviewInv (st : ReviewState) : Prop :=
  (st.resolved = false →
    st.currentFlaggedIdx ≤ (flaggedIndices st.sessionLog).length - 1 ∧
    resolvedTargets st = (flaggedIndices st.sessionLog).take st.currentFlaggedIdx) ∧
  (st.resolved = true →
    ∀ i ∈ flaggedIndices st.sessionLog, i ∈ resolvedTargets st)

/-! ## CSV upload parser (dataset converter page) -/

/-- Split a character list at every newline character. -/
def splitOnNewlines : List Char → List (List Char)
  | [] => [[]]
  | c :: rest =>
    if c = '\n' then [] :: splitOnNewlines rest
    else
      match splitOnNewlines rest with
      | [] => [[c]]
      | f :: fs => (c :: f) :: fs

/-- Remove one trailing carriage return, so that a carriage return directly
before a newline belongs to the separator (the source splits on an optional
carriage return followed by a newline). -/
def dropTrailingCR (l : List Char) : List Char :=
  if l.getLast? = some '\r' then l.dropLast else l

/-- Line splitting of the parser input. -/
def splitLines (text : String) : List String :=
  (splitOnNewlines text.data).map (fun l => String.mk (dropTrailingCR l))

/-- Whitespace trimming at both ends of a character list, the behavior of the
trim calls of the source. -/
def charTrim (l : List Char) : List Char :=
  ((l.dropWhile Char.isWhitespace).reverse.dropWhile Char.isWhitespace).reverse

/-- Whitespace trimming of a string at both ends. -/
def trimString (s : String) : String :=
  String.mk (charTrim s.data)

/-- The non-empty lines of the parser input: lines whose trimmed form is
non-empty, as filtered by the source. -/
def nonEmptyLines (text : String) : List String :=
  (splitLines text).filter (fun l => (trimString l).length > 0)

/-- The character loop of the parseLine helper: a double quote toggles the
in-quotes flag, except that a doubled double quote inside quotes appends one
double-quote character; a comma outside quotes ends the current field; any
other character is appended to the current field. -/
def parseLineLoop : List Char → Bool → List Char → List (List Char) → List (List Char)
  | [], _, cur, out => out ++ [cur]
  | c :: rest, inQ, cur, out =>
    if c = '"' then
      if inQ then
        match rest with
        | [] => parseLineLoop [] false cur out
        | c₂ :: rest₂ =>
          if c₂ = '"' then parseLineLoop rest₂ true (cur ++ ['"']) out
          else parseLineLoop (c₂ :: rest₂) false cur out
      else parseLineLoop rest true cur out
    else if c = ',' && !inQ then parseLineLoop rest inQ [] (out ++ [cur])
    else parseLineLoop rest inQ (cur ++ [c]) out

/-- The fields of one CSV line before the final trim, as produced by the
character loop of parseLine. -/
def parseLineRaw (line : String) : List String :=
  (parseLineLoop line.data false [] []).map (fun cs => String.mk cs)

/-- The parseLine helper: the fields of the character loop, each trimmed. -/
def parseLine (line : String) : List String :=
  (parseLineRaw line).map (fun s => trimString s)

/-- One parsed record: each header name paired with the cell at the same
position, which is absent when the line has fewer cells than the header. -/
def buildRow (header cells : List String) : List (String × Option String) :=
  (header.enum).map (fun p => (p.2, cells[p.1]?))

/-- The parseCSV function of the dataset converter page: keep the non-empty
lines, parse the first as the header, and build one record per remaining
line. -/
def parseCSV (text : String) : List (List (String × Option String)) :=
  match nonEmptyLines text with
  | [] => []
  | h :: t =>
    let header := parseLine h
    t.map (fun l => buildRow header (parseLine l))

/-- Reference comma splitting of a character list, with no quote handling:
used to state that the loop splits exactly on commas when the line has no
double-quote characters. -/
def commaSplit : List Char → List (List Char)
  | [] => [[]]
  | c :: rest =>
    if c = ',' then [] :: commaSplit rest
    else
      match commaSplit rest with
      | [] => [[c]]
      | f :: fs => (c :: f) :: fs

/-- Prepend an accumulated prefix to the first field of a split, used to state
the comma-splitting behavior of the loop. -/
def consHead (cur : List Char) : List (List Char) → List (List Char)
  | [] => [cur]
  | f :: fs => (cur ++ f) :: fs

/-- CSV quoting of one field: double every double-quote character and wrap the
result in double quotes. -/
def escapeQuotes : List Char → List Char
  | [] => []
  | c :: rest =>
    if c = '"' then '"' :: '"' :: escapeQuotes rest
    else c :: escapeQuotes rest

/-- A field encoded as a quoted CSV cell. -/
def encodeField (s : List Char) : List Char :=
  '"' :: (escapeQuotes s ++ ['"'])

/-- A full CSV line of quoted cells joined by commas. -/
def joinFields : List (List Char) → List Char
  | [] => []
  | [f] => encodeField f
  | f :: f₂ :: rest => encodeField f ++ ',' :: joinFields (f₂ :: rest)

/-! ## Helper lemmas -/

/-- Bounds of the scorer core: for a gap in [0,1] the score is in [0,1]. -/
theorem scoreOf_bounds (m : Bool) (g : ℚ) (h0 : 0 ≤ g) (h1 : g ≤ 1) :
    0 ≤ scoreOf m g ∧ scoreOf m g ≤ 1 := by
  cases m <;> simp [scoreOf, mismatchWeight, gapWeight] <;> constructor <;> linarith

/-- A negated emptiness test on a string is a disequality with the empty
string. -/
theorem not_isEmpty_iff (s : String) : (!s.isEmpty) = true ↔ s ≠ "" := by
  rw [Bool.not_eq_true', ← Bool.not_eq_true, not_iff_not]
  exact String.isEmpty_iff s

/-- The provider-validity boolean unfolded to a proposition. -/
theorem isConfigValid_iff (cfg : ProviderConfig) (conn : Bool) :
    isConfigValid cfg conn = true ↔
      (cfg.anthropicApiKey ≠ "" ∨ cfg.openaiApiKey ≠ "" ∨ cfg.googleApiKey ≠ "" ∨
        (conn = true ∧ cfg.ollamaBaseUrl ≠ "")) := by
  simp only [isConfigValid, Bool.or_eq_true, Bool.and_eq_true, not_isEmpty_iff]
  tauto

/-- The review invariant only reads the session log, the flagged-event index,
the resolved bit and the sent requests, so it transfers between states that
agree on those fields. -/
theorem reviewInv_of_fields (st st₂ : ReviewState)
    (h1 : st₂.sessionLog = st.sessionLog)
    (h2 : st₂.currentFlaggedIdx = st.currentFlaggedIdx)
    (h3 : st₂.resolved = st.resolved) (h4 : st₂.writes = st.writes)
    (hinv : ReviewInv st) : ReviewInv st₂ := by
  unfold ReviewInv resolvedTargets at *
  rw [h1, h2, h3, h4]
  exact hinv

/-- Each user interaction of the FlaggedSessions component preserves the
review invariant. -/
theorem reviewInv_step (st st₂ : ReviewState) (hinv : ReviewInv st)
    (hstep : ReviewStep st st₂) : ReviewInv st₂ := by
  cases hstep with
  | select l hl => exact reviewInv_of_fields st _ rfl rfl rfl rfl hinv
  | edit n => exact reviewInv_of_fields st _ rfl rfl rfl rfl hinv
  | submit =>
    rcases hsel : st.selectedLabel with _ | label
    · have heq : submitResolution st = st := by rw [submitResolution, hsel]
      rw [heq]
      exact hinv
    · rw [ReviewInv]
      simp only [submitResolution, hsel]
      split
      next hlt =>
        dsimp only
        constructor
        · intro hres
          obtain ⟨hidx, htake⟩ := hinv.1 hres
          refine ⟨by omega, ?_⟩
          simp only [resolvedTargets, List.map_append, List.flatten_append] at htake ⊢
          simp only [List.map_cons, List.map_nil, List.flatten_cons,
            List.flatten_nil, List.append_nil]
          rw [htake, ← List.take_succ]
        · intro hres
          intro i hi
          simp only [resolvedTargets, List.map_append, List.flatten_append]
          exact List.mem_append_left _ (hinv.2 hres i hi)
      next hlt =>
        dsimp only
        constructor
        · intro hres
          simp at hres
        · intro _
          intro i hi
          simp only [resolvedTargets, List.map_append, List.flatten_append]
          by_cases hres0 : st.resolved = true
          · exact List.mem_append_left _ (hinv.2 hres0 i hi)
          · obtain ⟨hidx, htake⟩ := hinv.1 (by simpa using hres0)
            have hlen : 1 ≤ (flaggedIndices st.sessionLog).length := by
              rcases hfi : flaggedIndices st.sessionLog with _ | ⟨a, fi₂⟩
              · rw [hfi] at hi
                simp at hi
              · simp
            have hidx2 :
                st.currentFlaggedIdx = (flaggedIndices st.sessionLog).length - 1 := by
              omega
            simp only [resolvedTargets] at htake
            simp only [List.map_cons, List.map_nil, List.flatten_cons,
              List.flatten_nil, List.append_nil]
            rw [htake, hidx2, ← List.take_succ,
                Nat.sub_add_cancel hlen, List.take_length]
            exact hi
  | auto =>
    rw [ReviewInv]
    simp only [autoAnnotateWithFinal]
    split
    next h1 =>
      exact hinv
    next h1 =>
      split
      next h2 =>
        exact hinv
      next h2 =>
        dsimp only
        constructor
        · intro hres
          simp at hres
        · intro _
          intro i hi
          simp only [resolvedTargets, List.map_append, List.flatten_append]
          refine List.mem_append_right _ ?_
          simpa using hi

/-- Every reachable review state satisfies the review invariant. -/
theorem reviewInv_of_reachable (st : ReviewState) (h : ReviewReachable st) :
    ReviewInv st := by
  induction h with
  | init log =>
    constructor
    · intro _
      exact ⟨Nat.zero_le _, by simp [initialReviewState, resolvedTargets]⟩
    · intro h
      simp [initialReviewState] at h
  | step st st₂ hreach hstep ih => exact reviewInv_step st st₂ ih hstep

/-! ## Claim theorems -/

/-- C9: the content truncation helper is the identity on short inputs and caps
long inputs: when the text has length at most maxLength the result is the text
unchanged, otherwise it is exactly the first maxLength characters of the text
followed by an ellipsis. -/
theorem truncate_spec (text : String) (maxLength : Nat) :
    (text.length ≤ maxLength → truncate text maxLength = text) ∧
    (maxLength < text.length →
      truncate text maxLength = text.take maxLength ++ "...") := by
  constructor <;> intro h
  · simp [truncate, h]
  · unfold truncate
    rw [if_neg (by omega)]

/-- C9 witness: the truncation helper evaluated on a short and a long concrete
input. -/
theorem truncate_spec_witness :
    truncate "hello" 10 = "hello" ∧
    truncate "hello" 3 = String.take "hello" 3 ++ "..." :=
  ⟨(truncate_spec "hello" 10).1 (by decide), (truncate_spec "hello" 3).2 (by decide)⟩

/-- C6: the label vocabulary is exactly the six enumerated cognitive labels:
the human-resolution interface offers exactly these six distinct choices, and
every cognitive label of the schema (so every agent decision and resolution
label) is one of them. -/
theorem label_vocabulary_spec :
    LABELS.map LabelOption.value =
      ["FollowingScent", "ApproachingSource", "DietEnrichment",
       "PoorScent", "LeavingPatch", "ForagingSuccess"] ∧
    (LABELS.map LabelOption.value).Nodup ∧
    LABELS.length = 6 ∧
    (∀ c : CognitiveLabel, labelName c ∈ LABELS.map LabelOption.value) ∧
    (∀ s ∈ LABELS.map LabelOption.value, ∃ c : CognitiveLabel, labelName c = s) ∧
    (∀ d : AgentDecision, labelName d.label ∈ LABELS.map LabelOption.value) := by
  refine ⟨rfl, by decide, rfl, ?_, ?_, ?_⟩
  · intro c
    cases c <;> simp [labelName, LABELS]
  · intro s hs
    simp [LABELS] at hs
    rcases hs with h | h | h | h | h | h <;> subst h
    · exact ⟨.followingScent, rfl⟩
    · exact ⟨.approachingSource, rfl⟩
    · exact ⟨.dietEnrichment, rfl⟩
    · exact ⟨.poorScent, rfl⟩
    · exact ⟨.leavingPatch, rfl⟩
    · exact ⟨.foragingSuccess, rfl⟩
  · intro d
    cases d.label <;> simp [labelName, LABELS]

/-- C6 witness: one concrete interface value has a matching schema label. -/
theorem label_vocabulary_spec_witness :
    ∃ c : CognitiveLabel, labelName c = "PoorScent" :=
  label_vocabulary_spec.2.2.2.2.1 "PoorScent" (by decide)

/-- C5: a job can only be started with at least one provider configured: the
start operation yields a processing job if and only if an Anthropic, OpenAI or
Google API key is present or a connected Ollama endpoint is configured, and
with no provider configured it is rejected, so no job enters processing. -/
theorem start_requires_provider (cfg : ProviderConfig) (conn : Bool)
    (jobId datasetId : String) (sessions : List String) :
    ((∃ j, startJob cfg conn jobId datasetId sessions = Except.ok j ∧
        j.status = JobStatus.processing) ↔
      (cfg.anthropicApiKey ≠ "" ∨ cfg.openaiApiKey ≠ "" ∨ cfg.googleApiKey ≠ "" ∨
        (conn = true ∧ cfg.ollamaBaseUrl ≠ ""))) ∧
    (isConfigValid cfg conn = false →
      startJob cfg conn jobId datasetId sessions = .error .noProviderConfigured) := by
  constructor
  · rw [← isConfigValid_iff cfg conn]
    constructor
    · rintro ⟨j, hj, -⟩
      by_contra hv
      rw [startJob, if_neg (by simpa using hv)] at hj
      exact absurd hj (by simp)
    · intro hv
      rw [startJob, if_pos (by simpa using hv)]
      exact ⟨_, rfl, rfl⟩
  · intro hv
    rw [startJob, if_neg (by simp [hv])]

/-- C5 witness: a configuration with no key and no connected Ollama endpoint
is rejected at start. -/
theorem start_requires_provider_witness :
    startJob { anthropicApiKey := "", openaiApiKey := "", googleApiKey := "",
               ollamaBaseUrl := "http://localhost:11434" } false
      "job1" "ds1" ["s_001"] = .error .noProviderConfigured :=
  (start_requires_provider _ false "job1" "ds1" ["s_001"]).2 (by decide)

/-- C4: the disagreement score of an event is in [0,1] for confidences in
[0,1], and is monotonically non-decreasing in the confidence gap and in the
introduction of a label mismatch; the score factors through the scorer core
applied to the mismatch bit and the confidence gap. -/
theorem disagreement_score_spec :
    (∀ analyst critic : AgentDecision,
        0 ≤ analyst.confidence → analyst.confidence ≤ 1 →
        0 ≤ critic.confidence → critic.confidence ≤ 1 →
        0 ≤ disagreementScore analyst critic ∧ disagreementScore analyst critic ≤ 1) ∧
    (∀ (m : Bool) (g g₂ : ℚ), g ≤ g₂ → scoreOf m g ≤ scoreOf m g₂) ∧
    (∀ g : ℚ, scoreOf false g ≤ scoreOf true g) ∧
    (∀ analyst critic : AgentDecision,
        disagreementScore analyst critic =
          scoreOf (decide (analyst.label ≠ critic.label))
            |analyst.confidence - critic.confidence|) := by
  refine ⟨?_, ?_, ?_, fun _ _ => rfl⟩
  · intro a c h0 h1 h2 h3
    have hg0 : (0:ℚ) ≤ |a.confidence - c.confidence| := abs_nonneg _
    have hg1 : |a.confidence - c.confidence| ≤ 1 := by
      rw [abs_le]
      constructor <;> linarith
    exact scoreOf_bounds _ _ hg0 hg1
  · intro m g g₂ hg
    cases m <;> simp [scoreOf, gapWeight] <;> linarith
  · intro g
    simp [scoreOf, mismatchWeight]
    linarith

/-- C4 witness: the bounds applied to a concrete pair of decisions with a
label mismatch and a confidence gap of one half. -/
theorem disagreement_score_spec_witness :
    0 ≤ disagreementScore
        { label := .followingScent, justification := "a", confidence := 1 }
        { label := .poorScent, justification := "b", confidence := 1/2 } ∧
      disagreementScore
        { label := .followingScent, justification := "a", confidence := 1 }
        { label := .poorScent, justification := "b", confidence := 1/2 } ≤ 1 :=
  disagreement_score_spec.1 _ _ (by norm_num) (by norm_num) (by norm_num) (by norm_num)

/-- C7: a resolution with a missing label is rejected synchronously with no
partial write: when no label is selected for the session, submitting a
resolution changes no state and sends no resolve request, and the save button
is disabled. -/
theorem missing_label_rejected (st : ReviewState) (h : st.selectedLabel = none) :
    submitResolution st = st ∧
    (submitResolution st).writes = st.writes ∧
    saveDisabled st = true := by
  refine ⟨?_, ?_, ?_⟩ <;> simp [submitResolution, saveDisabled, h]

/-- C7 witness: submitting with no selected label on a concrete freshly loaded
session state is a no-op. -/
theorem missing_label_rejected_witness :
    submitResolution
        (initialReviewState [⟨false, none⟩, ⟨true, some "PoorScent"⟩]) =
      initialReviewState [⟨false, none⟩, ⟨true, some "PoorScent"⟩] :=
  (missing_label_rejected _ rfl).1

/-- C1: resuming a stopped job succeeds: for every stopped job with a
checkpoint, the resume operation (with an optional re-supplied dataset and
replacement model configuration) transitions the job to processing and
continues from the first session not in the completed set of the checkpoint,
and it fails with the dataset-unavailable error exactly when the dataset of the
checkpoint can no longer be resolved and none is supplied. -/
theorem resume_stopped_job (cp : Checkpoint) (resolvable : String → Bool)
    (job : Job) (newDatasetId : Option String) (newConfig : Option String)
    (_hstop : job.status = JobStatus.stopped) :
    (resumeJob (some cp) resolvable job newDatasetId newConfig =
        .error .datasetUnavailable ↔
      (newDatasetId = none ∧ resolvable cp.datasetId = false)) ∧
    (∀ j, resumeJob (some cp) resolvable job newDatasetId newConfig = Except.ok j →
      j.status = .processing ∧
      j.completedSessions = cp.completedSessions ∧
      j.currentSession =
        (job.sessionIds.filter (fun s => decide (s ∉ cp.completedSessions))).head?) := by
  cases newDatasetId with
  | none =>
    by_cases hres : resolvable cp.datasetId
    · rw [resumeJob, if_pos hres]
      refine ⟨by simp [hres], ?_⟩
      rintro j hj
      cases hj
      exact ⟨rfl, rfl, rfl⟩
    · rw [resumeJob, if_neg hres]
      refine ⟨by simp [Bool.eq_false_iff.mpr hres], ?_⟩
      rintro j hj
      exact absurd hj (by simp)
  | some suppliedId =>
    rw [resumeJob]
    refine ⟨by simp, ?_⟩
    rintro j hj
    cases hj
    exact ⟨rfl, rfl, rfl⟩

/-- C1 witness: a concrete stopped job whose checkpoint dataset is gone fails
with the dataset-unavailable error when no dataset is supplied, and resumes
into processing when one is supplied. -/
theorem resume_stopped_job_witness :
    resumeJob
        (some { jobId := "job1", completedSessions := ["s_001"],
                datasetId := "ds1", configSnapshot := "cfg" })
        (fun _ => false)
        { jobId := "job1", datasetId := "ds1", sessionIds := ["s_001", "s_002"],
          status := .stopped, completedSessions := ["s_001"],
          currentSession := none, flaggedSessions := [], errors := [] }
        none none = .error .datasetUnavailable :=
  (resume_stopped_job _ _ _ none none rfl).1.mpr ⟨rfl, rfl⟩

/-- C8: when a primary model call fails and fallback is enabled, the role
switches to the fallback, every call before the end of the cooldown uses the
fallback without attempting the primary, the first call at or after the end of
the cooldown attempts the primary again, and the cooldown interval defaults to
5 minutes when the configuration omits it. -/
theorem fallback_cooldown_spec (cfg : RouterConfig) (st : RouterState) (t : Nat)
    (hen : cfg.enableFallback = true) (hclean : st.usingFallback = false) :
    ((routerInvoke cfg st t true).2.2.usingFallback = true ∧
      (routerInvoke cfg st t true).2.2.cooldownUntil =
        t + effectiveRetryAfter cfg.fallbackRetryAfter ∧
      (routerInvoke cfg st t true).2.1 = ModelChoice.fallback) ∧
    (∀ u, u < t + effectiveRetryAfter cfg.fallbackRetryAfter → ∀ pf : Bool,
      routerInvoke cfg ((routerInvoke cfg st t true).2.2) u pf =
        (false, ModelChoice.fallback, (routerInvoke cfg st t true).2.2)) ∧
    (∀ u, t + effectiveRetryAfter cfg.fallbackRetryAfter ≤ u → ∀ pf : Bool,
      (routerInvoke cfg ((routerInvoke cfg st t true).2.2) u pf).1 = true) ∧
    effectiveRetryAfter none = 5 := by
  have hstep : routerInvoke cfg st t true =
      (true, ModelChoice.fallback,
        { usingFallback := true,
          cooldownUntil := t + effectiveRetryAfter cfg.fallbackRetryAfter }) := by
    simp [routerInvoke, hclean, hen]
  rw [hstep]
  refine ⟨⟨rfl, rfl, rfl⟩, ?_, ?_, rfl⟩
  · intro u hu pf
    simp [routerInvoke, hu]
  · intro u hu pf
    have : ¬ u < t + effectiveRetryAfter cfg.fallbackRetryAfter := by omega
    cases pf <;> simp [routerInvoke, this, hen]

/-- C8 witness: with the interval omitted the cooldown is 5 minutes; after a
primary failure at minute 10 a call at minute 12 still uses the fallback
without attempting the primary, and a call at minute 16 attempts the primary
again. -/
theorem fallback_cooldown_spec_witness :
    routerInvoke { enableFallback := true, fallbackRetryAfter := none }
        ((routerInvoke { enableFallback := true, fallbackRetryAfter := none }
          { usingFallback := false, cooldownUntil := 0 } 10 true).2.2) 12 true =
      (false, ModelChoice.fallback,
        (routerInvoke { enableFallback := true, fallbackRetryAfter := none }
          { usingFallback := false, cooldownUntil := 0 } 10 true).2.2) ∧
    (routerInvoke { enableFallback := true, fallbackRetryAfter := none }
        ((routerInvoke { enableFallback := true, fallbackRetryAfter := none }
          { usingFallback := false, cooldownUntil := 0 } 10 true).2.2) 16 true).1 =
      true :=
  ⟨(fallback_cooldown_spec _ _ 10 rfl rfl).2.1 12 (by decide) true,
   (fallback_cooldown_spec _ _ 10 rfl rfl).2.2.1 16 (by decide) true⟩

/-- C3 counterexample: the claim says a session with at most 20 events uses
the full strategy; under the default configuration (the strategy field
defaults to truncate and is chosen by the user, not derived from the event
count) a 10-event session is processed with the truncate strategy, not the
full strategy. -/
theorem strategy_not_from_event_count :
    strategyFor defaultStrategyConfig 10 = SessionStrategy.truncateStrategy ∧
    SessionStrategy.truncateStrategy ≠ SessionStrategy.full :=
  ⟨rfl, by decide⟩

/-- C3 (amended): the processing strategy of every session is the configured
session strategy, independent of the event count of the session, with default
truncate; the sliding-window size defaults to 30, and under the sliding-window
strategy only the most recent windowSize events of a session are kept. -/
theorem strategy_is_configured :
    (∀ (cfg : StrategyConfig) (eventCount : Nat),
      strategyFor cfg eventCount = cfg.sessionStrategy) ∧
    defaultStrategyConfig.sessionStrategy = SessionStrategy.truncateStrategy ∧
    defaultStrategyConfig.windowSize = 30 ∧
    (∀ {α : Type} (w : Nat) (events : List α),
      (applySlidingWindow w events).length = min w events.length ∧
      (applySlidingWindow w events).IsSuffix events) := by
  refine ⟨fun _ _ => rfl, rfl, rfl, ?_⟩
  intro α w events
  constructor
  · simp only [applySlidingWindow, List.length_drop]
    omega
  · exact List.drop_suffix _ _

/-- C2: a session is added to the resolved set only when every flagged event
of the session is covered by a resolution request: in every reachable state of
the FlaggedSessions component in which the session is resolved, each flagged
position of its session log belongs to the targets of the requests sent;
contrapositively, while some flagged event lacks a resolution the session is
never marked resolved. -/
theorem session_resolved_only_when_all_flagged_covered (st : ReviewState)
    (h : ReviewReachable st) (hres : st.resolved = true) :
    ∀ i ∈ flaggedIndices st.sessionLog, i ∈ resolvedTargets st :=
  (reviewInv_of_reachable st h).2 hres

/-- C2 witness: on a two-event log whose second event is flagged, selecting a
label and saving resolves the session, and the flagged position 1 is covered
by the sent request. -/
theorem session_resolved_witness :
    1 ∈ resolvedTargets (submitResolution (selectLabel
      (initialReviewState [⟨false, none⟩, ⟨true, some "PoorScent"⟩]) "PoorScent")) :=
  session_resolved_only_when_all_flagged_covered _
    (ReviewReachable.step _ _
      (ReviewReachable.step _ _
        (ReviewReachable.init [⟨false, none⟩, ⟨true, some "PoorScent"⟩])
        (ReviewStep.select _ "PoorScent" (by decide)))
      (ReviewStep.submit _))
    (by decide) 1 (by decide)

/-! ## CSV parser lemmas -/

/-- Step of the loop: an opening quote outside quotes enters quoted mode. -/
theorem loop_open (rest : List Char) (cur : List Char) (out : List (List Char)) :
    parseLineLoop ('"' :: rest) false cur out = parseLineLoop rest true cur out := by
  rw [parseLineLoop.eq_def]
  simp

/-- Step of the loop: a comma outside quotes ends the current field. -/
theorem loop_comma (rest : List Char) (cur : List Char) (out : List (List Char)) :
    parseLineLoop (',' :: rest) false cur out =
      parseLineLoop rest false [] (out ++ [cur]) := by
  rw [parseLineLoop.eq_def]
  simp

/-- Step of the loop: inside quotes, any character other than a double quote,
commas included, is appended to the current field. -/
theorem loop_char_in_quotes (c : Char) (hc : c ≠ '"') (rest : List Char)
    (cur : List Char) (out : List (List Char)) :
    parseLineLoop (c :: rest) true cur out =
      parseLineLoop rest true (cur ++ [c]) out := by
  rw [parseLineLoop.eq_def]
  simp [hc]

/-- Step of the loop: outside quotes, a character that is neither a double
quote nor a comma is appended to the current field. -/
theorem loop_char_no_quotes (c : Char) (hc : c ≠ '"') (hcomma : c ≠ ',')
    (rest : List Char) (cur : List Char) (out : List (List Char)) :
    parseLineLoop (c :: rest) false cur out =
      parseLineLoop rest false (cur ++ [c]) out := by
  rw [parseLineLoop.eq_def]
  simp [hc, hcomma]

/-- Step of the loop: a doubled double quote inside quotes decodes to a single
double-quote character in the current field. -/
theorem loop_escape (rest : List Char) (cur : List Char) (out : List (List Char)) :
    parseLineLoop ('"' :: '"' :: rest) true cur out =
      parseLineLoop rest true (cur ++ ['"']) out := by
  rw [parseLineLoop.eq_def]
  simp

/-- Step of the loop: a closing quote followed by a character other than a
double quote leaves quoted mode. -/
theorem loop_close (c₂ : Char) (h : c₂ ≠ '"') (rest₂ : List Char)
    (cur : List Char) (out : List (List Char)) :
    parseLineLoop ('"' :: c₂ :: rest₂) true cur out =
      parseLineLoop (c₂ :: rest₂) false cur out := by
  rw [parseLineLoop.eq_def]
  simp [h]

/-- Step of the loop: a closing quote at the end of the line ends the current
field. -/
theorem loop_close_nil (cur : List Char) (out : List (List Char)) :
    parseLineLoop ['"'] true cur out = out ++ [cur] := by
  rw [parseLineLoop.eq_def]
  simp
  rw [parseLineLoop.eq_def]

/-- The reference comma split never returns an empty field list. -/
theorem commaSplit_ne_nil (l : List Char) : commaSplit l ≠ [] := by
  cases l with
  | nil => simp [commaSplit]
  | cons c rest =>
    rw [commaSplit]
    split
    · simp
    · rcases h : commaSplit rest with _ | ⟨f, fs⟩ <;> simp

/-- On a line with no double-quote character, the loop splits exactly on
commas: it returns the accumulated output, then the current field extended by
the first comma-separated piece, then the remaining pieces. -/
theorem loop_no_quote (l : List Char) (hq : ∀ c ∈ l, c ≠ '"') (cur : List Char)
    (out : List (List Char)) :
    parseLineLoop l false cur out = out ++ consHead cur (commaSplit l) := by
  induction l generalizing cur out with
  | nil =>
    rw [parseLineLoop.eq_def]
    simp [commaSplit, consHead]
  | cons c rest ih =>
    have hc : c ≠ '"' := hq c (List.mem_cons_self _ _)
    have hq₂ : ∀ c₂ ∈ rest, c₂ ≠ '"' := fun c₂ h => hq c₂ (List.mem_cons_of_mem _ h)
    by_cases hcomma : c = ','
    · subst hcomma
      rw [loop_comma, ih hq₂]
      rcases h : commaSplit rest with _ | ⟨f, fs⟩
      · exact absurd h (commaSplit_ne_nil rest)
      · simp [commaSplit, h, consHead]
    · rw [loop_char_no_quotes c hc hcomma, ih hq₂]
      rcases h : commaSplit rest with _ | ⟨f, fs⟩
      · exact absurd h (commaSplit_ne_nil rest)
      · simp [commaSplit, hcomma, h, consHead]

/-- Escaping doubles a double-quote character. -/
theorem escapeQuotes_cons_quote (s : List Char) :
    escapeQuotes ('"' :: s) = '"' :: '"' :: escapeQuotes s := by
  simp [escapeQuotes]

/-- Escaping keeps any other character. -/
theorem escapeQuotes_cons (c : Char) (hc : c ≠ '"') (s : List Char) :
    escapeQuotes (c :: s) = c :: escapeQuotes s := by
  simp [escapeQuotes, hc]

/-- Inside quotes, the loop consumes an escaped field up to its closing quote
and appends the decoded field, commas and decoded double quotes included, to
the current field. -/
theorem loop_in_quotes (s : List Char) (rest : List Char) (cur : List Char)
    (out : List (List Char)) :
    parseLineLoop (escapeQuotes s ++ '"' :: rest) true cur out =
      parseLineLoop ('"' :: rest) true (cur ++ s) out := by
  induction s generalizing cur with
  | nil => simp [escapeQuotes]
  | cons c s₂ ih =>
    by_cases hc : c = '"'
    · subst hc
      rw [escapeQuotes_cons_quote, List.cons_append, List.cons_append,
        loop_escape, ih]
      simp
    · rw [escapeQuotes_cons c hc, List.cons_append,
        loop_char_in_quotes c hc, ih]
      simp

/-- The loop decodes a full line of quoted cells back to the original fields,
appended to the accumulated output. -/
theorem loop_joinFields (fs : List (List Char)) (hne : fs ≠ [])
    (out : List (List Char)) :
    parseLineLoop (joinFields fs) false [] out = out ++ fs := by
  induction fs generalizing out with
  | nil => cases hne rfl
  | cons f fs₂ ih =>
    cases fs₂ with
    | nil =>
      rw [joinFields, encodeField, loop_open, loop_in_quotes f [] [] out,
        loop_close_nil]
      simp
    | cons f₂ fs₃ =>
      rw [joinFields, encodeField]
      have harr : ('"' :: (escapeQuotes f ++ ['"'])) ++ ',' :: joinFields (f₂ :: fs₃) =
          '"' :: (escapeQuotes f ++ '"' :: (',' :: joinFields (f₂ :: fs₃))) := by
        simp
      rw [harr, loop_open, loop_in_quotes f (',' :: joinFields (f₂ :: fs₃)) [] out,
        loop_close ',' (by decide), loop_comma, ih (by simp)]
      simp

/-- C10: the CSV upload parser treats the first non-empty line as the header
and returns one record per subsequent non-empty line, mapping each header name
to the corresponding trimmed cell; on lines with no double quote, fields split
exactly at commas; commas inside double-quoted fields do not split the field,
and a doubled double quote inside a quoted field decodes to a single
double-quote character (any line of quoted cells decodes back to its original
fields). -/
theorem parseCSV_spec :
    (∀ (text h : String) (t : List String), nonEmptyLines text = h :: t →
      parseCSV text = t.map (fun l => buildRow (parseLine h) (parseLine l))) ∧
    (∀ line : String, parseLine line = (parseLineRaw line).map trimString) ∧
    (∀ l : List Char, (∀ c ∈ l, c ≠ '"') →
      parseLineRaw (String.mk l) = (commaSplit l).map (fun cs => String.mk cs)) ∧
    (∀ fs : List (List Char), fs ≠ [] →
      parseLineRaw (String.mk (joinFields fs)) = fs.map (fun cs => String.mk cs)) := by
  refine ⟨?_, fun _ => rfl, ?_, ?_⟩
  · intro text h t hnel
    unfold parseCSV
    rw [hnel]
  · intro l hq
    unfold parseLineRaw
    rw [show (String.mk l).data = l from rfl, loop_no_quote l hq [] []]
    rcases hcs : commaSplit l with _ | ⟨f, fs⟩
    · exact absurd hcs (commaSplit_ne_nil l)
    · simp [consHead]
  · intro fs hne
    unfold parseLineRaw
    rw [show (String.mk (joinFields fs)).data = joinFields fs from rfl,
      loop_joinFields fs hne []]
    simp

/-- C10 witness: the parser evaluated on a concrete two-line file and on a
concrete quoted line whose second field contains a comma. -/
theorem parseCSV_spec_witness :
    parseCSV "h1,h2\na,b" =
      ["a,b"].map (fun l => buildRow (parseLine "h1,h2") (parseLine l)) ∧
    parseLineRaw (String.mk (joinFields [['a'], [',', 'b']])) =
      [['a'], [',', 'b']].map (fun cs => String.mk cs) :=
  ⟨parseCSV_spec.1 "h1,h2\na,b" "h1,h2" ["a,b"] (by decide),
   parseCSV_spec.2.2.2 [['a'], [',', 'b']] (by decide)⟩

end CognitiveTraces
